import Mathlib

/-!
Shallow embedding of `app/src/ui/merge-branch/merge.tsx` (the merge-dialog
component of the desktop repository): its state, its pure selection helpers,
and a small-step model of the asynchronous `updateMergeStatus` evaluation with
an explicit scheduler, so that stale-result races can be stated and settled.
-/

namespace MergeDialog

/-- A branch object. `id` models JavaScript object identity (two `Branch`
values denote the same runtime object iff their `id`s agree), `name` is the
branch name used by the UI and by `merge`. -/
structure Branch where
  id : Nat
  name : String
deriving DecidableEq

/-- JavaScript strict equality `===` on two possibly-null branch references:
`null === null` is true, a branch equals a branch iff they are the same
object. -/
def optRefEq : Option Branch → Option Branch → Bool
  | none, none => true
  | some a, some b => a.id == b.id
  | _, _ => false

/-- Modelled from the spec: the tagged merge-preview variant. The concrete
`MergeResultStatus` type lives in `app/src/lib/app-state`, outside `src/`;
the spec lists the variants `Loading`, `Clean`, `Conflicted` (with a
conflicted-file count) and `Unknown`. -/
inductive MergeResultStatus where
  | loading
  | clean
  | conflicts (conflictedFiles : Nat)
  | unknown
deriving DecidableEq

/-- The ahead/behind pair returned by the `getAheadBehind` collaborator. -/
structure AheadBehind where
  ahead : Nat
  behind : Nat
deriving DecidableEq

/-- `IMergeState` from merge.tsx. `commitCount = none` models the TypeScript
`undefined` ("no branch selected or still calculating"). -/
structure IMergeState where
  selectedBranch : Option Branch
  mergeStatus : Option MergeResultStatus
  commitCount : Option Nat
  filterText : String
deriving DecidableEq

/-- The props of the component that the modelled logic reads: `defaultBranch`,
`currentBranch` (null when HEAD is detached) and the optional
`initialBranch`. -/
structure IMergeProps where
  defaultBranch : Option Branch
  currentBranch : Option Branch
  initialBranch : Option Branch
deriving DecidableEq

/-- `resolveSelectedBranch` from merge.tsx: the initial branch is used if
passed, otherwise the default branch iff it is not the currently checked out
branch. -/
def resolveSelectedBranch (props : IMergeProps) : Option Branch :=
  match props.initialBranch with
  | some b => some b
  | none =>
      if optRefEq props.currentBranch props.defaultBranch then none
      else props.defaultBranch

/-- The `disabled` flag computed in `render` (merge.tsx lines 223-227). -/
def mergeButtonDisabled (props : IMergeProps) (state : IMergeState) : Bool :=
  state.selectedBranch.isNone ||
  props.currentBranch.isNone ||
  (match props.currentBranch, state.selectedBranch with
   | some c, some s => c.name == s.name
   | _, _ => false) ||
  state.commitCount == some 0

/-- The merge action is submittable exactly when the submit button is not
disabled. -/
def canSubmitMerge (props : IMergeProps) (state : IMergeState) : Bool :=
  !mergeButtonDisabled props state

/-- The state built in the constructor of the component. -/
def initialState (props : IMergeProps) : IMergeState :=
  { selectedBranch := resolveSelectedBranch props
    commitCount := none
    filterText := ""
    mergeStatus := none }

/-- Modelled from the spec: the symmetric-difference revision range between
two refs. `revSymmetricDifference` lives in `app/src/lib/git`, outside
`src/`; only the range string it produces is threaded through here. -/
def revSymmetricDifference (a b : String) : String := a ++ "..." ++ b

/-- Observable calls made to the external collaborators. -/
inductive Effect where
  | callMergeTree (current candidate : Branch)
  | callGetAheadBehind (range : String)
  | callMergeBranch (branchName : String)
  | callClosePopup
deriving DecidableEq

/-- The environment fixed for the lifetime of the dialog: the feature flag
`enableMergeConflictDetection()` and the `currentBranch` prop that
`updateMergeStatus` destructures. -/
structure Env where
  conflictDetection : Bool
  currentBranch : Option Branch
deriving DecidableEq

/-- The suspension point an in-flight `updateMergeStatus` invocation is
parked at: awaiting the floored `mergeTree` promise, or awaiting
`getAheadBehind`. -/
inductive EvalPhase where
  | awaitingMergeTree
  | awaitingAheadBehind
deriving DecidableEq

/-- One in-flight `updateMergeStatus(branch)` invocation. -/
structure EvalTask where
  taskId : Nat
  branch : Branch
  phase : EvalPhase
deriving DecidableEq

/-- The component together with its pending asynchronous continuations.
`nextId` numbers the evaluations in launch order. -/
structure Sys where
  state : IMergeState
  tasks : List EvalTask
  nextId : Nat
deriving DecidableEq

/-- The system as the constructor leaves it: no evaluation in flight. -/
def initialSys (props : IMergeProps) : Sys :=
  { state := initialState props, tasks := [], nextId := 0 }

/-- The pending task with the given id that is parked at phase `p`. -/
def findTask (s : Sys) (tid : Nat) (p : EvalPhase) : Option EvalTask :=
  s.tasks.find? (fun t => t.taskId == tid && t.phase == p)

/-- The synchronous prefix of `updateMergeStatus(branch)` (merge.tsx lines
265-281): set `mergeStatus` to `Loading`; then, when conflict detection is
enabled and there is a current branch, start `mergeTree` behind the
500 ms floor and suspend awaiting it, otherwise start `getAheadBehind`
directly and suspend awaiting it. -/
def launchUpdateMergeStatus (env : Env) (branch : Branch) (s : Sys) :
    Sys × List Effect :=
  let st := { s.state with mergeStatus := some MergeResultStatus.loading }
  match env.conflictDetection, env.currentBranch with
  | true, some current =>
      ({ state := st
         tasks := s.tasks ++ [⟨s.nextId, branch, EvalPhase.awaitingMergeTree⟩]
         nextId := s.nextId + 1 },
       [Effect.callMergeTree current branch])
  | _, _ =>
      ({ state := st
         tasks := s.tasks ++ [⟨s.nextId, branch, EvalPhase.awaitingAheadBehind⟩]
         nextId := s.nextId + 1 },
       [Effect.callGetAheadBehind (revSymmetricDifference "" branch.name)])

/-- `onSelectionChanged` from merge.tsx (lines 104-111): a non-null selection
is stored and an evaluation is launched for it; a null selection synchronously
resets `selectedBranch`, `commitCount` and `mergeStatus` and launches
nothing. -/
def onSelectionChanged (env : Env) (newSelection : Option Branch) (s : Sys) :
    Sys × List Effect :=
  match newSelection with
  | some b =>
      launchUpdateMergeStatus env b
        { s with state := { s.state with selectedBranch := some b } }
  | none =>
      ({ s with
         state := { s.state with
                    selectedBranch := none
                    commitCount := some 0
                    mergeStatus := none } },
       [])

/-- `componentDidMount` from merge.tsx: launch an evaluation for the initial
selection when there is one. -/
def componentDidMount (env : Env) (s : Sys) : Sys × List Effect :=
  match s.state.selectedBranch with
  | none => (s, [])
  | some b => launchUpdateMergeStatus env b s

/-- `onFilterTextChanged` from merge.tsx: a pure state update. -/
def onFilterTextChanged (t : String) (s : Sys) : Sys × List Effect :=
  ({ s with state := { s.state with filterText := t } }, [])

/-- Resumption of `updateMergeStatus` when the floored `mergeTree` promise
settles (merge.tsx lines 271-280). On fulfilment the result is written into
`mergeStatus` unconditionally and `getAheadBehind` is started; on rejection
the `await` throws and the async function aborts with no further writes and
no `getAheadBehind` call. -/
def resumeMergeTree (tid : Nat) (result : Except Unit MergeResultStatus)
    (s : Sys) : Sys × List Effect :=
  match findTask s tid EvalPhase.awaitingMergeTree with
  | none => (s, [])
  | some t =>
      match result with
      | Except.error _ =>
          ({ s with tasks := s.tasks.filter (fun u => u.taskId != tid) }, [])
      | Except.ok m =>
          ({ s with
             state := { s.state with mergeStatus := some m }
             tasks := s.tasks.map (fun u =>
               if u.taskId == tid then
                 { u with phase := EvalPhase.awaitingAheadBehind }
               else u) },
           [Effect.callGetAheadBehind (revSymmetricDifference "" t.branch.name)])

/-- Resumption of `updateMergeStatus` when `getAheadBehind` settles
(merge.tsx lines 280-288): the behind count (0 when no result) becomes the
commit count; if the selected branch is no longer the branch this evaluation
was launched for, `commitCount` is set to `undefined` instead. -/
def resumeAheadBehind (tid : Nat) (aheadBehind : Option AheadBehind)
    (s : Sys) : Sys × List Effect :=
  match findTask s tid EvalPhase.awaitingAheadBehind with
  | none => (s, [])
  | some t =>
      let commitCount :=
        match aheadBehind with
        | some ab => ab.behind
        | none => 0
      let tasks := s.tasks.filter (fun u => u.taskId != tid)
      if !optRefEq s.state.selectedBranch (some t.branch) then
        ({ s with state := { s.state with commitCount := none }
                  tasks := tasks }, [])
      else
        ({ s with state := { s.state with commitCount := some commitCount }
                  tasks := tasks }, [])

/-- The `merge` submit handler from merge.tsx (lines 291-299): a no-op when no
branch is selected, otherwise it calls `dispatcher.mergeBranch` with the
selected branch name and then `dispatcher.closePopup`. -/
def merge (s : Sys) : Sys × List Effect :=
  match s.state.selectedBranch with
  | none => (s, [])
  | some branch =>
      (s, [Effect.callMergeBranch branch.name, Effect.callClosePopup])

/-- An event the single-threaded scheduler can deliver to the component. -/
inductive Action where
  | select (b : Option Branch)
  | filter (t : String)
  | mergeTreeSettled (tid : Nat) (result : Except Unit MergeResultStatus)
  | aheadBehindSettled (tid : Nat) (ab : Option AheadBehind)
  | submit

/-- One scheduler step. -/
def step (env : Env) (s : Sys) : Action → Sys × List Effect
  | Action.select b => onSelectionChanged env b s
  | Action.filter t => onFilterTextChanged t s
  | Action.mergeTreeSettled tid r => resumeMergeTree tid r s
  | Action.aheadBehindSettled tid ab => resumeAheadBehind tid ab s
  | Action.submit => merge s

/-- Run a sequence of scheduler events, collecting the collaborator calls. -/
def run (env : Env) : Sys → List Action → Sys × List Effect
  | s, [] => (s, [])
  | s, a :: rest =>
      let r := step env s a
      let r2 := run env r.1 rest
      (r2.1, r.2 ++ r2.2)

/-- Modelled from the spec: `promiseWithMinimumTimeout` lives in
`app/src/lib/promise`, outside `src/`. An asynchronous operation is modelled
by its completion latency in milliseconds together with its outcome (a result
or a failure). -/
structure AsyncOp (α : Type) where
  latency : Nat
  outcome : Except String α

/-- Modelled from the spec: the delay-floored runner starts the operation
immediately, races it against a `timeoutMs` timer, and settles with the
operation's outcome (result or failure alike) once both the operation and the
floor have elapsed. -/
def promiseWithMinimumTimeout {α : Type} (action : AsyncOp α)
    (timeoutMs : Nat) : AsyncOp α :=
  { latency := max action.latency timeoutMs, outcome := action.outcome }

/-- Concrete fixture: the checked-out branch. -/
def mainBranch : Branch := ⟨0, "main"⟩

/-- Concrete fixture: a first candidate branch. -/
def branchA : Branch := ⟨1, "feature-a"⟩

/-- Concrete fixture: a second candidate branch. -/
def branchB : Branch := ⟨2, "feature-b"⟩

/-- Concrete fixture: conflict detection enabled, `main` checked out. -/
def envOn : Env := { conflictDetection := true, currentBranch := some mainBranch }

/-- Concrete fixture: conflict detection disabled, `main` checked out. -/
def envOff : Env := { conflictDetection := false, currentBranch := some mainBranch }

/-- Concrete fixture: props with no default branch and no initial branch. -/
def props0 : IMergeProps :=
  { defaultBranch := none, currentBranch := some mainBranch, initialBranch := none }

/-- Concrete fixture: the system after selecting `branchA` then `branchB` with
conflict detection disabled; both evaluations are parked at `getAheadBehind`
and the live selection is `branchB`, so the pending `branchA` evaluation is
stale. -/
def sysStaleAB : Sys :=
  (run envOff (initialSys props0)
    [Action.select (some branchA), Action.select (some branchB)]).1

/-- Concrete fixture: the system right after selecting `branchA` with conflict
detection enabled; its evaluation is parked at the floored `mergeTree`. -/
def sysPendingMT : Sys :=
  (run envOn (initialSys props0) [Action.select (some branchA)]).1

/-- Concrete fixture: the system right after selecting `branchA` with conflict
detection disabled; its evaluation is parked at `getAheadBehind`. -/
def sysFreshA : Sys :=
  (run envOff (initialSys props0) [Action.select (some branchA)]).1

/-- Concrete fixture: the branchA evaluation parked at `getAheadBehind`. -/
def taskA_AB : EvalTask := ⟨0, branchA, EvalPhase.awaitingAheadBehind⟩

/-- Concrete fixture: the branchA evaluation parked at `mergeTree`. -/
def taskA_MT : EvalTask := ⟨0, branchA, EvalPhase.awaitingMergeTree⟩

/-- Invariant maintained when conflict detection is disabled: no pending
evaluation awaits the tree-merge simulation, and the stored merge result is
null or `Loading`. -/
def DisabledInv (s : Sys) : Prop :=
  (∀ t ∈ s.tasks, t.phase = EvalPhase.awaitingAheadBehind) ∧
  (s.state.mergeStatus = none ∨
   s.state.mergeStatus = some MergeResultStatus.loading)

/-- C3: the computed commit count is written into `commitCount` exactly when
the branch it was computed for is still the selected branch (by object
identity); when the selection has moved on, the count for the other branch is
never applied — `commitCount` is set to `undefined` instead. -/
theorem commitCount_applied_only_when_selected (s : Sys) (tid : Nat)
    (ab : Option AheadBehind) (t : EvalTask)
    (hfind : findTask s tid EvalPhase.awaitingAheadBehind = some t) :
    (optRefEq s.state.selectedBranch (some t.branch) = false →
       (resumeAheadBehind tid ab s).1.state.commitCount = none) ∧
    (optRefEq s.state.selectedBranch (some t.branch) = true →
       (resumeAheadBehind tid ab s).1.state.commitCount =
         some (match ab with | some x => x.behind | none => 0)) := by
  refine ⟨fun h => ?_, fun h => ?_⟩ <;> simp [resumeAheadBehind, hfind, h]

/-- Witness for C3: with the selection unchanged, the behind count 5 is
applied as the commit count. -/
theorem commitCount_applied_only_when_selected_witness :
    (resumeAheadBehind 0 (some ⟨0, 5⟩) sysFreshA).1.state.commitCount = some 5 :=
  (commitCount_applied_only_when_selected sysFreshA 0 (some ⟨0, 5⟩) taskA_AB
    (by decide)).2 (by decide)

/-- C4: the delay-floored runner settles at latency `max(t, floor)` — at the
floor when the operation is faster, at the operation's own latency (no added
delay) when it is slower — and always with the operation's own outcome, so a
failure propagates and is never masked. -/
theorem promiseWithMinimumTimeout_floor {α : Type} (action : AsyncOp α)
    (floorMillis : Nat) :
    ((promiseWithMinimumTimeout action floorMillis).latency =
        max action.latency floorMillis) ∧
    (action.latency < floorMillis →
        (promiseWithMinimumTimeout action floorMillis).latency = floorMillis) ∧
    (floorMillis ≤ action.latency →
        (promiseWithMinimumTimeout action floorMillis).latency =
          action.latency) ∧
    ((promiseWithMinimumTimeout action floorMillis).outcome =
        action.outcome) := by
  refine ⟨rfl, fun h => ?_, fun h => ?_, rfl⟩
  · simp [promiseWithMinimumTimeout, Nat.max_eq_right (Nat.le_of_lt h)]
  · simp [promiseWithMinimumTimeout, Nat.max_eq_left h]

/-- Witness for C4: an operation failing after 100 ms under a 500 ms floor
settles at 500 ms with the failure intact. -/
theorem promiseWithMinimumTimeout_floor_witness :
    (promiseWithMinimumTimeout (⟨100, Except.error "merge-tree failed"⟩ :
        AsyncOp Nat) 500).latency = 500 ∧
    (promiseWithMinimumTimeout (⟨100, Except.error "merge-tree failed"⟩ :
        AsyncOp Nat) 500).outcome = Except.error "merge-tree failed" :=
  ⟨(promiseWithMinimumTimeout_floor ⟨100, Except.error "merge-tree failed"⟩
      500).2.1 (by decide),
   (promiseWithMinimumTimeout_floor (⟨100, Except.error "merge-tree failed"⟩ :
      AsyncOp Nat) 500).2.2.2⟩

/-- C6: the submit button's enablement is the stated pure function of state:
it is disabled exactly when there is no selected branch, no current branch,
the two branch names coincide, or the commit count is zero; in particular a
zero commit count or a self-merge forces it disabled whatever the rest of the
state holds. -/
theorem canSubmitMerge_characterization (props : IMergeProps)
    (state : IMergeState) :
    (canSubmitMerge props state = false ↔
      (state.selectedBranch = none ∨ props.currentBranch = none ∨
       (∃ c sb, props.currentBranch = some c ∧ state.selectedBranch = some sb ∧
          c.name = sb.name) ∨
       state.commitCount = some 0)) ∧
    (state.commitCount = some 0 → canSubmitMerge props state = false) ∧
    (∀ c sb, props.currentBranch = some c → state.selectedBranch = some sb →
       c.name = sb.name → canSubmitMerge props state = false) := by
  have hmain : canSubmitMerge props state = false ↔
      (state.selectedBranch = none ∨ props.currentBranch = none ∨
       (∃ c sb, props.currentBranch = some c ∧ state.selectedBranch = some sb ∧
          c.name = sb.name) ∨
       state.commitCount = some 0) := by
    cases hc : props.currentBranch with
    | none => simp [canSubmitMerge, mergeButtonDisabled, hc]
    | some c =>
      cases hsb : state.selectedBranch with
      | none => simp [canSubmitMerge, mergeButtonDisabled, hc, hsb]
      | some sb =>
        simp only [canSubmitMerge, mergeButtonDisabled, hc, hsb]
        by_cases hn : c.name = sb.name <;> simp [hn]
  refine ⟨hmain, fun h => hmain.mpr (Or.inr (Or.inr (Or.inr h))),
    fun c sb hc hsb hname =>
      hmain.mpr (Or.inr (Or.inr (Or.inl ⟨c, sb, hc, hsb, hname⟩)))⟩

/-- Witness for C6: with `main` checked out, `feature-a` selected and a zero
commit count, the merge action is disabled. -/
theorem canSubmitMerge_characterization_witness :
    canSubmitMerge props0
      { selectedBranch := some branchA
        mergeStatus := some MergeResultStatus.clean
        commitCount := some 0
        filterText := "" } = false :=
  (canSubmitMerge_characterization props0
    { selectedBranch := some branchA
      mergeStatus := some MergeResultStatus.clean
      commitCount := some 0
      filterText := "" }).2.1 rfl

/-- C7: a null selection is handled synchronously: `selectedBranch` becomes
null, `commitCount` becomes 0 and `mergeStatus` becomes null, the filter text
is untouched, no evaluation is launched and no collaborator is called. -/
theorem onSelectionChanged_null (env : Env) (s : Sys) :
    (onSelectionChanged env none s).1.state.selectedBranch = none ∧
    (onSelectionChanged env none s).1.state.commitCount = some 0 ∧
    (onSelectionChanged env none s).1.state.mergeStatus = none ∧
    (onSelectionChanged env none s).1.state.filterText = s.state.filterText ∧
    (onSelectionChanged env none s).1.tasks = s.tasks ∧
    (onSelectionChanged env none s).2 = [] := by
  simp [onSelectionChanged]

/-- C8: the initial-selection resolution returns the override branch whenever
one is supplied; otherwise it returns null when the current branch is (by
identity) the default branch, and the default branch when they differ. -/
theorem resolveSelectedBranch_rule (props : IMergeProps) :
    (∀ b, props.initialBranch = some b →
        resolveSelectedBranch props = some b) ∧
    (props.initialBranch = none →
      (optRefEq props.currentBranch props.defaultBranch = true →
        resolveSelectedBranch props = none) ∧
      (optRefEq props.currentBranch props.defaultBranch = false →
        resolveSelectedBranch props = props.defaultBranch)) := by
  refine ⟨fun b hb => ?_, fun hn => ⟨fun he => ?_, fun he => ?_⟩⟩
  · simp [resolveSelectedBranch, hb]
  · simp [resolveSelectedBranch, hn, he]
  · simp [resolveSelectedBranch, hn, he]

/-- Witness for C8: an explicit initial branch wins over the default. -/
theorem resolveSelectedBranch_rule_witness :
    resolveSelectedBranch
      { defaultBranch := some mainBranch
        currentBranch := some mainBranch
        initialBranch := some branchB } = some branchB :=
  (resolveSelectedBranch_rule
    { defaultBranch := some mainBranch
      currentBranch := some mainBranch
      initialBranch := some branchB }).1 branchB rfl

/-- C10: with no branch selected the submit handler does nothing — no merge
execution, no dialog dismissal, no state change; with any selected branch it
proceeds to the merge execution and dismissal unconditionally, enforcing none
of the remaining enablement conditions. -/
theorem merge_submit_guard (s : Sys) :
    (s.state.selectedBranch = none → merge s = (s, [])) ∧
    (∀ b, s.state.selectedBranch = some b →
      merge s = (s, [Effect.callMergeBranch b.name, Effect.callClosePopup])) := by
  refine ⟨fun h => ?_, fun b h => ?_⟩ <;> simp [merge, h]

/-- Witness for C10: in the freshly constructed dialog (nothing selected),
submitting is a no-op. -/
theorem merge_submit_guard_witness :
    merge (initialSys props0) = (initialSys props0, []) :=
  (merge_submit_guard (initialSys props0)).1 (by decide)

/-- C1 counterexample: select `feature-a`, then `feature-b`, then let
`feature-a`'s floored tree-merge settle with `Conflicted(3)`. Before that
settlement the stored merge result is `Loading`; after it, the stale result
for `feature-a` sits in `mergeStatus` while `feature-b` is the selection — an
asynchronous result of A's evaluation was written after B was selected, so
the staleness re-check is not applied at every async-result application
point. -/
theorem stale_merge_result_written_after_selection_change :
    (run envOn (initialSys props0)
      [Action.select (some branchA),
       Action.select (some branchB)]).1.state.mergeStatus
      = some MergeResultStatus.loading ∧
    (run envOn (initialSys props0)
      [Action.select (some branchA), Action.select (some branchB),
       Action.mergeTreeSettled 0
         (Except.ok (MergeResultStatus.conflicts 3))]).1.state.selectedBranch
      = some branchB ∧
    (run envOn (initialSys props0)
      [Action.select (some branchA), Action.select (some branchB),
       Action.mergeTreeSettled 0
         (Except.ok (MergeResultStatus.conflicts 3))]).1.state.mergeStatus
      = some (MergeResultStatus.conflicts 3) := by decide

/-- C1 (amended): the staleness re-check is applied only at the commit-count
application point — a stale continuation never writes the other branch's
count (it resets `commitCount` to `undefined` and leaves `mergeStatus` and
`selectedBranch` alone) — while the tree-merge result is written into
`mergeStatus` unconditionally, with no staleness re-check. -/
theorem staleness_check_only_at_commit_count :
    (∀ (s : Sys) (tid : Nat) (ab : Option AheadBehind) (t : EvalTask),
       findTask s tid EvalPhase.awaitingAheadBehind = some t →
       optRefEq s.state.selectedBranch (some t.branch) = false →
       (resumeAheadBehind tid ab s).1.state.commitCount = none ∧
       (resumeAheadBehind tid ab s).1.state.mergeStatus =
         s.state.mergeStatus ∧
       (resumeAheadBehind tid ab s).1.state.selectedBranch =
         s.state.selectedBranch) ∧
    (∀ (s : Sys) (tid : Nat) (m : MergeResultStatus) (t : EvalTask),
       findTask s tid EvalPhase.awaitingMergeTree = some t →
       (resumeMergeTree tid (Except.ok m) s).1.state.mergeStatus = some m) := by
  constructor
  · intro s tid ab t hfind hstale
    refine ⟨?_, ?_, ?_⟩ <;> simp [resumeAheadBehind, hfind, hstale]
  · intro s tid m t hfind
    simp [resumeMergeTree, hfind]

/-- Witness for the amended C1: the stale `feature-a` continuation drops its
count, and a pending tree-merge result is written without any check. -/
theorem staleness_check_only_at_commit_count_witness :
    (resumeAheadBehind 0 (some ⟨0, 7⟩) sysStaleAB).1.state.commitCount =
      none ∧
    (resumeMergeTree 0 (Except.ok MergeResultStatus.clean)
      sysPendingMT).1.state.mergeStatus = some MergeResultStatus.clean :=
  ⟨(staleness_check_only_at_commit_count.1 sysStaleAB 0 (some ⟨0, 7⟩) taskA_AB
      (by decide) (by decide)).1,
   staleness_check_only_at_commit_count.2 sysPendingMT 0
     MergeResultStatus.clean taskA_MT (by decide)⟩

/-- C2 counterexample: select `feature-a` with conflict detection enabled and
let its floored tree-merge reject. The merge result stays `Loading` (it is
not degraded to `Unknown`), the only collaborator ever called is `mergeTree`
(the sibling `getAheadBehind` is never started), and `commitCount` is never
resolved — the failure aborts the evaluation instead of being recovered. -/
theorem tree_merge_failure_aborts_evaluation :
    (run envOn (initialSys props0)
      [Action.select (some branchA),
       Action.mergeTreeSettled 0 (Except.error ())]).1.state.mergeStatus
      = some MergeResultStatus.loading ∧
    (run envOn (initialSys props0)
      [Action.select (some branchA),
       Action.mergeTreeSettled 0 (Except.error ())]).1.state.commitCount
      = none ∧
    (run envOn (initialSys props0)
      [Action.select (some branchA),
       Action.mergeTreeSettled 0 (Except.error ())]).2
      = [Effect.callMergeTree mainBranch branchA] := by decide

/-- C2 (amended): when the floored tree-merge promise rejects, the `await`
throws and the evaluation aborts: the component state is left exactly as it
was (in particular `mergeStatus` is not degraded to `Unknown`), and the
sibling ahead/behind computation is never started, so this evaluation never
resolves `commitCount`. -/
theorem tree_merge_rejection_aborts (s : Sys) (tid : Nat) (t : EvalTask)
    (hfind : findTask s tid EvalPhase.awaitingMergeTree = some t) :
    (resumeMergeTree tid (Except.error ()) s).1.state = s.state ∧
    (resumeMergeTree tid (Except.error ()) s).2 = [] := by
  simp [resumeMergeTree, hfind]

/-- Witness for the amended C2: a rejection of `feature-a`'s pending
tree-merge leaves the state untouched and calls no collaborator. -/
theorem tree_merge_rejection_aborts_witness :
    (resumeMergeTree 0 (Except.error ()) sysPendingMT).1.state =
      sysPendingMT.state ∧
    (resumeMergeTree 0 (Except.error ()) sysPendingMT).2 = [] :=
  tree_merge_rejection_aborts sysPendingMT 0 taskA_MT (by decide)

/-- C9 counterexample: select `feature-a`, then `feature-b`; `feature-b`'s
ahead/behind settles first and sets `commitCount = 5`; then `feature-a`'s
stale ahead/behind settles, and the stale continuation mutates state — it
overwrites `commitCount` with `undefined`, so the state is not left
unchanged. -/
theorem stale_ahead_behind_mutates_commit_count :
    (run envOff (initialSys props0)
      [Action.select (some branchA), Action.select (some branchB),
       Action.aheadBehindSettled 1 (some ⟨0, 5⟩)]).1.state.commitCount
      = some 5 ∧
    (resumeAheadBehind 0 (some ⟨0, 7⟩)
      (run envOff (initialSys props0)
        [Action.select (some branchA), Action.select (some branchB),
         Action.aheadBehindSettled 1 (some ⟨0, 5⟩)]).1).1.state.commitCount
      = none := by decide

/-- C9 (amended): a stale ahead/behind continuation discards the computed
count, calls nothing, and leaves `selectedBranch`, `mergeStatus` and
`filterText` unchanged — but it does not leave the whole state unchanged: it
resets `commitCount` to `undefined`. -/
theorem stale_ahead_behind_frame (s : Sys) (tid : Nat)
    (ab : Option AheadBehind) (t : EvalTask)
    (hfind : findTask s tid EvalPhase.awaitingAheadBehind = some t)
    (hstale : optRefEq s.state.selectedBranch (some t.branch) = false) :
    (resumeAheadBehind tid ab s).1.state =
      { s.state with commitCount := none } ∧
    (resumeAheadBehind tid ab s).2 = [] := by
  simp [resumeAheadBehind, hfind, hstale]

/-- Witness for the amended C9: the stale `feature-a` continuation only
resets `commitCount`. -/
theorem stale_ahead_behind_frame_witness :
    (resumeAheadBehind 0 (some ⟨1, 9⟩) sysStaleAB).1.state =
      { sysStaleAB.state with commitCount := none } :=
  (stale_ahead_behind_frame sysStaleAB 0 (some ⟨1, 9⟩) taskA_AB
    (by decide) (by decide)).1

/-- With conflict detection disabled, a launch always takes the plain
ahead/behind path, whatever the current branch is. -/
theorem launch_disabled (env : Env) (henv : env.conflictDetection = false)
    (b : Branch) (s : Sys) :
    launchUpdateMergeStatus env b s =
      ({ state := { s.state with mergeStatus := some MergeResultStatus.loading }
         tasks := s.tasks ++ [⟨s.nextId, b, EvalPhase.awaitingAheadBehind⟩]
         nextId := s.nextId + 1 },
       [Effect.callGetAheadBehind (revSymmetricDifference "" b.name)]) := by
  cases hcur : env.currentBranch <;>
    simp [launchUpdateMergeStatus, henv, hcur]

/-- When every pending task awaits `getAheadBehind`, no task awaits the
tree-merge simulation. -/
theorem findTask_mergeTree_none (s : Sys) (tid : Nat)
    (h : ∀ t ∈ s.tasks, t.phase = EvalPhase.awaitingAheadBehind) :
    findTask s tid EvalPhase.awaitingMergeTree = none := by
  unfold findTask
  rw [List.find?_eq_none]
  intro x hx
  simp [h x hx]

/-- A resumed ahead/behind continuation removes its own task, emits no
collaborator call, and never touches `mergeStatus`. -/
theorem resumeAheadBehind_shape (s : Sys) (tid : Nat) (ab : Option AheadBehind)
    (t : EvalTask)
    (hf : findTask s tid EvalPhase.awaitingAheadBehind = some t) :
    ((resumeAheadBehind tid ab s).1.tasks =
        s.tasks.filter (fun u => u.taskId != tid)) ∧
    ((resumeAheadBehind tid ab s).1.state.mergeStatus =
        s.state.mergeStatus) ∧
    ((resumeAheadBehind tid ab s).2 = []) := by
  by_cases hsel : optRefEq s.state.selectedBranch (some t.branch) = true
  · refine ⟨?_, ?_, ?_⟩ <;> simp [resumeAheadBehind, hf, hsel]
  · have hsel' : optRefEq s.state.selectedBranch (some t.branch) = false := by
      simpa using hsel
    refine ⟨?_, ?_, ?_⟩ <;> simp [resumeAheadBehind, hf, hsel']

/-- Every scheduler step preserves the disabled-mode invariant and calls the
tree-merge simulation on no step. -/
theorem step_preserves_disabledInv (env : Env)
    (henv : env.conflictDetection = false) (s : Sys) (hs : DisabledInv s)
    (a : Action) :
    DisabledInv (step env s a).1 ∧
    ∀ c b, Effect.callMergeTree c b ∉ (step env s a).2 := by
  cases a with
  | select ob =>
    cases ob with
    | none =>
      exact ⟨⟨hs.1, Or.inl rfl⟩, by intro c b; simp [step, onSelectionChanged]⟩
    | some b =>
      have hstep : step env s (Action.select (some b)) =
          launchUpdateMergeStatus env b
            { s with state := { s.state with selectedBranch := some b } } :=
        rfl
      rw [hstep, launch_disabled env henv b]
      refine ⟨⟨?_, Or.inr rfl⟩, ?_⟩
      · intro t ht
        rcases List.mem_append.mp ht with h1 | h1
        · exact hs.1 t h1
        · rw [List.mem_singleton.mp h1]
      · intro c b'
        simp
  | filter t =>
    exact ⟨⟨hs.1, hs.2⟩, by intro c b; simp [step, onFilterTextChanged]⟩
  | mergeTreeSettled tid r =>
    have hnone := findTask_mergeTree_none s tid hs.1
    have hstep : step env s (Action.mergeTreeSettled tid r) = (s, []) := by
      simp [step, resumeMergeTree, hnone]
    rw [hstep]
    exact ⟨hs, by intro c b; simp⟩
  | aheadBehindSettled tid ab =>
    cases hf : findTask s tid EvalPhase.awaitingAheadBehind with
    | none =>
      have hstep : step env s (Action.aheadBehindSettled tid ab) = (s, []) := by
        simp [step, resumeAheadBehind, hf]
      rw [hstep]
      exact ⟨hs, by intro c b; simp⟩
    | some t =>
      have h3 := resumeAheadBehind_shape s tid ab t hf
      have hfst : (step env s (Action.aheadBehindSettled tid ab)).1 =
          (resumeAheadBehind tid ab s).1 := rfl
      have hsnd : (step env s (Action.aheadBehindSettled tid ab)).2 =
          (resumeAheadBehind tid ab s).2 := rfl
      refine ⟨⟨?_, ?_⟩, ?_⟩
      · intro u hu
        rw [hfst, h3.1] at hu
        exact hs.1 u (List.mem_of_mem_filter hu)
      · rw [hfst, h3.2.1]
        exact hs.2
      · intro c b
        rw [hsnd, h3.2.2]
        simp
  | submit =>
    have h1 : (step env s Action.submit).1 = s := by
      cases hsel : s.state.selectedBranch <;> simp [step, merge, hsel]
    have h2 : ∀ c b, Effect.callMergeTree c b ∉ (step env s Action.submit).2 := by
      intro c b
      cases hsel : s.state.selectedBranch <;> simp [step, merge, hsel]
    refine ⟨?_, h2⟩
    rw [h1]
    exact hs

/-- Along any run with conflict detection disabled, the disabled-mode
invariant holds and the tree-merge simulation is never called. -/
theorem run_preserves_disabledInv (env : Env)
    (henv : env.conflictDetection = false) (acts : List Action) (s : Sys)
    (hs : DisabledInv s) :
    DisabledInv (run env s acts).1 ∧
    ∀ c b, Effect.callMergeTree c b ∉ (run env s acts).2 := by
  induction acts generalizing s with
  | nil => exact ⟨hs, by intro c b; simp [run]⟩
  | cons a rest ih =>
    have hstep := step_preserves_disabledInv env henv s hs a
    have hrest := ih (step env s a).1 hstep.1
    refine ⟨hrest.1, ?_⟩
    intro c b hmem
    have hsplit : (run env s (a :: rest)).2 =
        (step env s a).2 ++ (run env (step env s a).1 rest).2 := rfl
    rw [hsplit] at hmem
    rcases List.mem_append.mp hmem with h | h
    · exact hstep.2 c b h
    · exact hrest.2 c b h

/-- C5 counterexample: with conflict detection disabled, selecting
`feature-a` sets `mergeStatus` to `Loading` — it does not stay null
throughout the evaluation. -/
theorem disabled_merge_status_not_null :
    (run envOff (initialSys props0)
      [Action.select (some branchA)]).1.state.mergeStatus
      = some MergeResultStatus.loading ∧
    ¬ (run envOff (initialSys props0)
        [Action.select (some branchA)]).1.state.mergeStatus = none := by
  decide

/-- C5 (amended): with conflict detection disabled, no run from the freshly
constructed dialog ever calls the tree-merge simulation, the stored merge
result is only ever null or `Loading` (it is set to `Loading` when an
evaluation starts, never to a tree-merge outcome), and a selection launches
exactly the ahead/behind call, from which alone `commitCount` is computed. -/
theorem disabled_conflict_detection_run (env : Env) (props : IMergeProps)
    (acts : List Action) (henv : env.conflictDetection = false) :
    (∀ c b, Effect.callMergeTree c b ∉ (run env (initialSys props) acts).2) ∧
    ((run env (initialSys props) acts).1.state.mergeStatus = none ∨
     (run env (initialSys props) acts).1.state.mergeStatus =
       some MergeResultStatus.loading) ∧
    (∀ (s : Sys) (b : Branch),
       (step env s (Action.select (some b))).2 =
         [Effect.callGetAheadBehind (revSymmetricDifference "" b.name)]) := by
  have h0 : DisabledInv (initialSys props) := by
    refine ⟨?_, Or.inl rfl⟩
    intro t ht
    exact absurd ht (List.not_mem_nil t)
  have h := run_preserves_disabledInv env henv acts (initialSys props) h0
  refine ⟨h.2, h.1.2, ?_⟩
  intro s b
  have hstep : (step env s (Action.select (some b))).2 =
      (launchUpdateMergeStatus env b
        { s with state := { s.state with selectedBranch := some b } }).2 := rfl
  rw [hstep, launch_disabled env henv b]

/-- Witness for the amended C5: in the concrete disabled run that selects
`feature-a`, the tree-merge simulation is not among the collaborator calls. -/
theorem disabled_conflict_detection_run_witness :
    Effect.callMergeTree mainBranch branchA ∉
      (run envOff (initialSys props0) [Action.select (some branchA)]).2 :=
  (disabled_conflict_detection_run envOff props0
    [Action.select (some branchA)] rfl).1 mainBranch branchA

end MergeDialog
